import Mathlib

/-!
Verification of the futuur-scanner core decision engine.

The Python source is shallowly embedded: pure functions become Lean
functions over `ℚ` (Python floats are modelled as exact rationals, so
the algebra of the formulas is preserved), fallible code returns
`Option`/`Except` (a `ZeroDivisionError` or a raised `RuntimeError`
becomes `none`/`.error`), and the external environment of an estimation
call (network, model response, clock, request arguments) is passed as an
explicit argument.  Field and function names follow the source
(`strategy.py`, `gpt_client.py`, `portfolio_client.py`, `web_app.py`),
with leading underscores dropped.
-/

namespace Futuur

/-- The fields of `models.Market` consumed by the strategy module and the
estimator: the coarse category tag and the market-implied price `s`
(`strategy.py` reads only `m.domain` and `m.s`). -/
structure Market where
  domain : String
  s : ℚ
deriving DecidableEq

/-- Character-list test: does the first list lead the second? -/
def starts_with_chars : List Char → List Char → Bool
  | [], _ => true
  | _ :: _, [] => false
  | c :: cs, d :: ds => c == d && starts_with_chars cs ds

/-- Character-list test: does the needle occur contiguously in the
haystack? -/
def contains_chars (needle : List Char) : List Char → Bool
  | [] => starts_with_chars needle []
  | d :: ds => starts_with_chars needle (d :: ds) || contains_chars needle ds

/-- Python `needle in haystack` substring test, used by
`_compute_pre_p` for its domain keyword checks. -/
def containsSub (needle haystack : String) : Bool :=
  contains_chars needle.data haystack.data

/-- Python `str.lower()` (character-wise, which is exact for the ASCII
keywords and mode names the source compares against). -/
def lower_str (s : String) : String := ⟨s.data.map Char.toLower⟩

/-- Python `str.strip()`: drop whitespace from both ends. -/
def py_strip (s : String) : String :=
  ⟨((s.data.dropWhile (·.isWhitespace)).reverse.dropWhile (·.isWhitespace)).reverse⟩

/-- Python `str.startswith(pre)`. -/
def py_startswith (s pre : String) : Bool := starts_with_chars pre.data s.data

/-- The clamp `max(0.0001, min(0.9999, float(s)))` from
`strategy.py` line 25. -/
def clamp_s (s : ℚ) : ℚ :=
  max (1/10000) (min (9999/10000) s)

/-- `strategy._compute_pre_p`: the deterministic heuristic pre-GPT
probability estimate (`strategy.py` lines 20-52). -/
def compute_pre_p (domain : String) (s0 : ℚ) : ℚ :=
  let s := clamp_s s0
  let dom := lower_str domain
  if s ≤ 1/10 then 4/100
  else if 9/10 ≤ s then 9/10
  else if (containsSub "finance" dom || containsSub "science" dom)
      && !(containsSub "sports" dom || containsSub "entertainment" dom
            || containsSub "politics" dom) then
    1/2 + 1/2 * (s - 1/2)
  else
    let p_raw := 1/2 + 3/10 * (s - 1/2)
    let p_adj :=
      if 65/100 < s then p_raw - 1/10
      else if s < 35/100 then p_raw + 1/10
      else p_raw
    max (1/100) (min (99/100) p_adj)

/-- Modelled from the spec: the piecewise heuristic exactly as the spec
states it (extreme-price branches first, then the fundamentals-driven
shrink, then the narrative-heavy adjustment with clamping), written on
the raw price `s` with no preliminary clamp.  Used only to compare the
source function `compute_pre_p` against the spec's wording. -/
def pre_p_spec_form (domain : String) (s : ℚ) : ℚ :=
  let dom := lower_str domain
  if s ≤ 1/10 then 4/100
  else if 9/10 ≤ s then 9/10
  else if (containsSub "finance" dom || containsSub "science" dom)
      && !(containsSub "sports" dom || containsSub "entertainment" dom
            || containsSub "politics" dom) then
    1/2 + 1/2 * (s - 1/2)
  else
    let p_raw := 1/2 + 3/10 * (s - 1/2)
    let p_adj :=
      if 65/100 < s then p_raw - 1/10
      else if s < 35/100 then p_raw + 1/10
      else p_raw
    max (1/100) (min (99/100) p_adj)

/-- `strategy._kelly_yes` with Python division modelled as fallible:
`none` is a `ZeroDivisionError` (`strategy.py` lines 55-59). -/
def kelly_yes_checked (p s : ℚ) : Option ℚ :=
  if p ≤ s ∨ 1 ≤ s then some 0
  else if 1 - s = 0 then none
  else some ((p - s) / (1 - s))

/-- `strategy._kelly_no` with Python division modelled as fallible:
`none` is a `ZeroDivisionError` (`strategy.py` lines 62-66). -/
def kelly_no_checked (p s : ℚ) : Option ℚ :=
  if s ≤ p ∨ s ≤ 0 then some 0
  else if s = 0 then none
  else some ((s - p) / s)

/-- Total form of `strategy._kelly_yes` (the guard makes the division
safe; see `kelly_yes_checked_eq`). -/
def kelly_yes (p s : ℚ) : ℚ :=
  if p ≤ s ∨ 1 ≤ s then 0 else (p - s) / (1 - s)

/-- Total form of `strategy._kelly_no` (the guard makes the division
safe; see `kelly_no_checked_eq`). -/
def kelly_no (p s : ℚ) : ℚ :=
  if s ≤ p ∨ s ≤ 0 then 0 else (s - p) / s

/-- `strategy.EDGE_THRESHOLD = 0.02` (`strategy.py` line 7). -/
def EDGE_THRESHOLD : ℚ := 2/100

/-- `config.DEFAULT_RISK_MODE`, modelled at its default value `"half"`
(the environment override is outside the core). -/
def DEFAULT_RISK_MODE : String := "half"

/-- `strategy.risk_mode_from_string` (`strategy.py` lines 10-17):
`None`/empty falls back to the configured default, `full*` means
full Kelly, anything else means half Kelly. -/
def risk_mode_from_string (value : Option String) : ℚ :=
  let v0 :=
    match value with
    | some str => if str = "" then DEFAULT_RISK_MODE else str
    | none => DEFAULT_RISK_MODE
  let v := lower_str v0
  if py_startswith v "full" then 1
  else if py_startswith v "half" then 1/2
  else 1/2

/-- `models.Recommendation` (the fields written by
`strategy.build_recommendations`). -/
structure Recommendation where
  market : Market
  side : String
  s : ℚ
  p0 : ℚ
  edge0 : ℚ
  kelly_full : ℚ
  kelly_half : ℚ
  limit : ℚ
  notes : String
deriving DecidableEq

/-- The per-market body of the loop in
`strategy.build_recommendations` (`strategy.py` lines 82-141):
`none` models the `continue` that skips boundary prices. -/
def rec_for_market (risk_fraction : ℚ) (m : Market) : Option Recommendation :=
  if m.s ≤ 0 ∨ 1 ≤ m.s then none
  else
    let s := m.s
    let p0 := compute_pre_p m.domain s
    let edge_yes := p0 - s
    let edge_no := s - p0
    let f_yes := kelly_yes p0 s
    let f_no := kelly_no p0 s
    let side :=
      if f_yes ≤ 0 ∧ f_no ≤ 0 then
        (if |edge_no| ≤ |edge_yes| then "yes" else "no")
      else (if f_no ≤ f_yes then "yes" else "no")
    let best_edge :=
      if f_yes ≤ 0 ∧ f_no ≤ 0 then
        (if |edge_no| ≤ |edge_yes| then edge_yes else edge_no)
      else (if f_no ≤ f_yes then edge_yes else edge_no)
    let full_kelly0 :=
      if f_yes ≤ 0 ∧ f_no ≤ 0 then 0
      else (if f_no ≤ f_yes then f_yes else f_no)
    let full_kelly1 := if |best_edge| < EDGE_THRESHOLD then 0 else full_kelly0
    let half_kelly := full_kelly1 * (1/2)
    let notes :=
      if s ≤ 1/10 then "Longshot fade baseline"
      else if 9/10 ≤ s then "Crowded favorite; trimmed p"
      else ""
    some
      { market := m
        side := side
        s := s
        p0 := p0
        edge0 := best_edge
        kelly_full := full_kelly1 * risk_fraction
        kelly_half := half_kelly * risk_fraction
        limit := s
        notes := notes }

/-- `strategy.build_recommendations` (`strategy.py` lines 69-145):
maps markets through the sizing loop (bankroll is accepted and ignored,
as in the source) and sorts by descending absolute edge. -/
def build_recommendations (markets : List Market) (bankroll : Option ℚ)
    (risk_mode : Option String) : List Recommendation :=
  let _ := bankroll
  let risk_fraction := risk_mode_from_string risk_mode
  (markets.filterMap (rec_for_market risk_fraction)).mergeSort
    (fun a b => |b.edge0| ≤ |a.edge0|)

/-- A raw outcome/price field as the API delivers it: a scalar that is
or is not convertible by Python `float(...)`, or a currency → value
mapping (entries in insertion order, keys unique). -/
inductive PriceScalar where
  | convertible (q : ℚ)
  | malformed
deriving DecidableEq

/-- The shape of the raw `price` field handled by
`portfolio_client._extract_outcome_price`. -/
inductive PriceField where
  | scalar (v : PriceScalar)
  | mapping (entries : List (String × PriceScalar))
deriving DecidableEq

/-- Python `float(x)` as a fallible conversion. -/
def try_float : PriceScalar → Option ℚ
  | .convertible q => some q
  | .malformed => none

/-- The fallback loop of `_extract_outcome_price`: first value of the
mapping that converts to float, in insertion order. -/
def first_convertible : List (String × PriceScalar) → Option ℚ
  | [] => none
  | (_, v) :: rest =>
    match try_float v with
    | some q => some q
    | none => first_convertible rest

/-- `portfolio_client._extract_outcome_price` (lines 167-187): for a
mapping, try `"USDT"` then `"USDC"` then the first convertible value,
else `0.0`; for a scalar, `float(...)` with `0.0` on failure. -/
def extract_outcome_price (price : PriceField) : ℚ :=
  match price with
  | .mapping entries =>
    match (entries.lookup "USDT").bind try_float with
    | some q => q
    | none =>
      match (entries.lookup "USDC").bind try_float with
      | some q => q
      | none => (first_convertible entries).getD 0
  | .scalar v => (try_float v).getD 0

/-- One purchase lot of `active_purchases` (its `amount` and `shares`
after Python float conversion; lots that fail conversion are skipped by
the source and are not modelled). -/
structure RawLot where
  amount : ℚ
  shares : ℚ
deriving DecidableEq

/-- The fields of a raw bet record consumed by
`portfolio_client._map_bet`; `position` is `"l"` or `"s"` (empty string
models an absent field), and `close_date` is the question's
`bet_end_date` on an abstract integer time line. -/
structure RawBet where
  bet_id : Nat
  position : String
  active_purchases : List RawLot
  outcome_price : PriceField
  close_date : Option ℤ
deriving DecidableEq

/-- The fields of `portfolio_client.BetRow` used by valuation and by
`web_app._calc_open_bets`. -/
structure BetRow where
  bet_id : Nat
  position : String
  shares : ℚ
  amount_invested : ℚ
  avg_price : ℚ
  mark_price : ℚ
  mark_value : ℚ
  unrealized_pnl : ℚ
  status : String
  close_date : Option ℤ
deriving DecidableEq

/-- `portfolio_client._map_bet` (lines 190-248): sums the purchase
lots, derives the average entry price, pulls the mark price, and keeps
the lot-sum shares verbatim (`shares = total_shares`, no sign
adjustment for shorts) so `mark_value = shares * mark_price`. -/
def map_bet (raw : RawBet) (status_label : String) : BetRow :=
  let total_amount := (raw.active_purchases.map (·.amount)).sum
  let total_shares := (raw.active_purchases.map (·.shares)).sum
  let avg_price := if total_shares = 0 then 0 else total_amount / total_shares
  let mark_price := extract_outcome_price raw.outcome_price
  let shares := total_shares
  let mark_value := shares * mark_price
  let unrealized_pnl :=
    if status_label = "open" then mark_value - total_amount else 0
  { bet_id := raw.bet_id
    position := if raw.position = "" then "l" else raw.position
    shares := shares
    amount_invested := total_amount
    avg_price := avg_price
    mark_price := mark_price
    mark_value := mark_value
    unrealized_pnl := unrealized_pnl
    status := status_label
    close_date := raw.close_date }

/-- `web_app.clamp01`. -/
def clamp01 (x : ℚ) : ℚ := max 0 (min 1 x)

/-- `web_app._market_p_win_for_position` (lines 1133-1136): the
market-implied win probability of a held position — the mark price for
a long, its complement for a short. -/
def market_p_win_for_position (position : String) (outcome_price : ℚ) : ℚ :=
  let s := clamp01 outcome_price
  let pos := lower_str (if position = "" then "l" else position)
  if pos = "l" then s else 1 - s

/-- One row produced by `web_app._calc_open_bets` (the numeric and
status fields of the dict built at lines 1210-1235). -/
structure OpenBetRow where
  bet_id : Nat
  position : String
  amount_invested : ℚ
  shares : ℚ
  avg_price : ℚ
  mark_price : ℚ
  market_p_win : ℚ
  p_input : ℚ
  delta_p : ℚ
  abs_delta_p : ℚ
  mv_value : ℚ
  ev_value : ℚ
  ev_edge : ℚ
  unrealized_calc : ℚ
  is_pending : Bool
deriving DecidableEq

/-- The result of `web_app._calc_open_bets`: the rows plus the three
portfolio accumulators. -/
structure CalcOpenBets where
  rows : List OpenBetRow
  mv_port : ℚ
  ev_port : ℚ
  total_unrealized : ℚ
deriving DecidableEq

/-- The per-bet body of the loop in `web_app._calc_open_bets`
(lines 1176-1235).  `pmap` is the parsed probability-override map keyed
by bet id; `legacy` is the request's raw `p_<bet_id>` query argument
(an undeclared extra input of the source, passed here explicitly);
`now` is the wall-clock reading `datetime.now()`. -/
def calc_row (pmap : List (Nat × ℚ)) (legacy : Nat → Option ℚ) (now : ℤ)
    (b : BetRow) : OpenBetRow :=
  let mkt_p_win := market_p_win_for_position b.position b.mark_price
  let p_user :=
    match pmap.lookup b.bet_id with
    | some v => v
    | none =>
      match legacy b.bet_id with
      | some v => clamp01 v
      | none => mkt_p_win
  let mv_value := b.mark_value
  let ev_value := b.shares * p_user
  let ev_edge := ev_value - mv_value
  let unrealized_calc := mv_value - b.amount_invested
  let delta_p := p_user - mkt_p_win
  let is_pending :=
    match b.close_date with
    | some t => decide (t < now)
    | none => false
  { bet_id := b.bet_id
    position := b.position
    amount_invested := b.amount_invested
    shares := b.shares
    avg_price := b.avg_price
    mark_price := b.mark_price
    market_p_win := mkt_p_win
    p_input := p_user
    delta_p := delta_p
    abs_delta_p := |delta_p|
    mv_value := mv_value
    ev_value := ev_value
    ev_edge := ev_edge
    unrealized_calc := unrealized_calc
    is_pending := is_pending }

/-- `web_app._calc_open_bets` (lines 1168-1237): builds one row per
open bet and accumulates market value, expected value and unrealized
P&L in the same pass. -/
def calc_open_bets (open_bets : List BetRow) (pmap : List (Nat × ℚ))
    (legacy : Nat → Option ℚ) (now : ℤ) : CalcOpenBets :=
  let rows := open_bets.map (calc_row pmap legacy now)
  { rows := rows
    mv_port := (rows.map (·.mv_value)).sum
    ev_port := (rows.map (·.ev_value)).sum
    total_unrealized := (rows.map (·.unrealized_calc)).sum }

/-- The fields of `portfolio_client.LimitOrderRow` used by the
portfolio totals (only the reserved notional is summed there). -/
structure LimitOrderRow where
  side : String
  price : ℚ
  remaining_shares : ℚ
  reserved_notional : ℚ
deriving DecidableEq

/-- The portfolio aggregates computed by the `web_app.portfolio` route
(lines 1276-1287). -/
structure PortfolioTotals where
  mv_port : ℚ
  ev_port : ℚ
  total_unrealized : ℚ
  mv_total : ℚ
  ev_total : ℚ
  reserved_notional : ℚ
  total_exposure : ℚ
deriving DecidableEq

/-- The totals computation of the `web_app.portfolio` route: cash and
reserved notional are folded into the `_calc_open_bets` accumulators. -/
def portfolio_totals (c : CalcOpenBets) (open_orders : List LimitOrderRow)
    (cash : ℚ) : PortfolioTotals :=
  let reserved := (open_orders.map (·.reserved_notional)).sum
  { mv_port := c.mv_port
    ev_port := c.ev_port
    total_unrealized := c.total_unrealized
    mv_total := c.mv_port + cash
    ev_total := c.ev_port + cash
    reserved_notional := reserved
    total_exposure := c.mv_port + reserved }

/-- The outcome of the model call's response parsing, classified:
text that is not JSON, JSON without a numeric `"p"`, or a usable
`(p, reason)` pair (`gpt_client.py` lines 134-147). -/
inductive ModelText where
  | badJson (raw : String)
  | missingP (raw : String)
  | withP (p : ℚ) (reason : String)
deriving DecidableEq

/-- The environment one `get_p_from_gpt` call runs in: no OpenAI
client, an active rate-limit cooldown, a transport error (with optional
HTTP status), or a response (`gpt_client.py` lines 100-133). -/
inductive GptEnv where
  | noClient (errMsg : Option String)
  | rateLimited
  | transportError (message : String) (status : Option Nat)
  | response (text : ModelText)
deriving DecidableEq

/-- `gpt_client._clamp_p`. -/
def clamp_p (x : ℚ) : ℚ := max 0 (min 1 x)

/-- `gpt_client._fallback_p` (lines 85-97): reuse the market price,
nudging extremes toward the center, with the degradation reason. -/
def fallback_p (market : Market) (explanation : Option String) : ℚ × String :=
  let s := if market.s = 0 then 1/2 else market.s
  let p :=
    if 9/10 ≤ s then s - 5/100
    else if s ≤ 1/10 then s + 5/100
    else s
  let reason :=
    explanation.getD "OpenAI client unavailable; defaulting to the market price."
  (clamp_p p, py_strip reason)

/-- `gpt_client.get_p_from_gpt` (lines 100-147): returns `.ok` where
the source returns and `.error` where it raises `RuntimeError`. -/
def get_p_from_gpt (market : Market) (env : GptEnv) :
    Except String (ℚ × String) :=
  match env with
  | .noClient e => .ok (fallback_p market (some (e.getD "OpenAI client not configured")))
  | .rateLimited =>
    .ok (fallback_p market (some "OpenAI rate limit still in effect; using market price"))
  | .transportError msg status =>
    let reason :=
      if status = some 429 then "OpenAI rate limit exceeded; using market price"
      else "API error: " ++ msg
    .ok (fallback_p market (some reason))
  | .response (.badJson raw) =>
    .error ("Failed to parse JSON from model. Raw: " ++ raw)
  | .response (.missingP raw) =>
    .error ("Model JSON missing numeric p: " ++ raw)
  | .response (.withP p reason) =>
    let r := py_strip reason
    .ok (clamp_p p, if r = "" then "Model did not provide a reason." else r)

def sports_longshot : Market := ⟨"sports", 1/20⟩

def sports_longshot_rec : Recommendation :=
  { market := sports_longshot, side := "no", s := 1/20, p0 := 4/100,
    edge0 := 1/100, kelly_full := 0, kelly_half := 0, limit := 1/20,
    notes := "Longshot fade baseline" }

def politics_market : Market := ⟨"politics", 3/5⟩

def politics_rec : Recommendation :=
  { market := politics_market, side := "no", s := 3/5, p0 := 53/100,
    edge0 := 7/100, kelly_full := 7/120, kelly_half := 7/240,
    limit := 3/5, notes := "" }

def short_bet_raw : RawBet :=
  { bet_id := 7, position := "s",
    active_purchases := [{ amount := 50, shares := 100 }],
    outcome_price := .scalar (.convertible (3/10)),
    close_date := none }

def politics_cheap : Market := ⟨"politics", 1/5⟩

def pending_bet : BetRow :=
  { bet_id := 1, position := "l", shares := 10, amount_invested := 5,
    avg_price := 1/2, mark_price := 3/5, mark_value := 6,
    unrealized_pnl := 1, status := "open", close_date := some 100 }

theorem kelly_yes_checked_eq (p s : ℚ) :
    kelly_yes_checked p s = some (kelly_yes p s) := by
  unfold kelly_yes_checked kelly_yes
  by_cases h : p ≤ s ∨ 1 ≤ s
  · simp [h]
  · have hs : ¬ (1 ≤ s) := fun hc => h (Or.inr hc)
    have : (1 : ℚ) - s ≠ 0 := by
      intro hz
      exact hs (by linarith [sub_eq_zero.mp hz])
    simp [h, this]

theorem kelly_no_checked_eq (p s : ℚ) :
    kelly_no_checked p s = some (kelly_no p s) := by
  unfold kelly_no_checked kelly_no
  by_cases h : s ≤ p ∨ s ≤ 0
  · simp [h]
  · have hs : ¬ (s ≤ 0) := fun hc => h (Or.inr hc)
    have : s ≠ 0 := fun hz => hs (le_of_eq hz)
    simp [h, this]

theorem clamp_s_eq_self {s : ℚ} (h1 : 1/10 < s) (h2 : s < 9/10) : clamp_s s = s := by
  unfold clamp_s
  rw [min_eq_right (by linarith), max_eq_right (by linarith)]

theorem clamp_s_low {s : ℚ} (h : s ≤ 1/10) : clamp_s s ≤ 1/10 := by
  unfold clamp_s
  exact max_le (by norm_num) (le_trans (min_le_right _ _) h)

theorem clamp_s_high {s : ℚ} (h : 9/10 ≤ s) : 9/10 ≤ clamp_s s := by
  unfold clamp_s
  exact le_trans (le_min (by norm_num) h) (le_max_right _ _)

/-- C3: on the whole open interval (0,1) of market prices, the source
heuristic `_compute_pre_p` coincides with the spec's piecewise
definition, extreme-price branches first. -/
theorem C3_heuristic_matches_spec (domain : String) (s : ℚ)
    (h0 : 0 < s) (h1 : s < 1) :
    compute_pre_p domain s = pre_p_spec_form domain s := by
  simp only [compute_pre_p, pre_p_spec_form]
  rcases le_or_lt s (1/10) with hA | hA
  · rw [if_pos (clamp_s_low hA), if_pos hA]
  · rcases le_or_lt (9/10) s with hB | hB
    · have hc := clamp_s_high hB
      have hn1 : ¬ (clamp_s s ≤ 1/10) := by push_neg; linarith
      have hn2 : ¬ (s ≤ 1/10) := by push_neg; linarith
      rw [if_neg hn1, if_pos hc, if_neg hn2, if_pos hB]
    · rw [clamp_s_eq_self hA hB]

theorem C3_witness :
    (0 < (1/5 : ℚ)) ∧ (1/5 : ℚ) < 1 ∧
      compute_pre_p "politics" (1/5) = pre_p_spec_form "politics" (1/5) :=
  ⟨by norm_num, by norm_num,
    C3_heuristic_matches_spec "politics" (1/5) (by norm_num) (by norm_num)⟩

/-- C10: the heuristic is total and its value always lies in
[0.01, 0.99], for every domain string and every rational price. -/
theorem C10_heuristic_bounded (domain : String) (s : ℚ) :
    1/100 ≤ compute_pre_p domain s ∧ compute_pre_p domain s ≤ 99/100 := by
  have htl : (1:ℚ)/10000 ≤ clamp_s s := le_max_left _ _
  have hth : clamp_s s ≤ 9999/10000 :=
    max_le (by norm_num) (min_le_left _ _)
  simp only [compute_pre_p]
  constructor
  · split_ifs with h1 h2 h3 h4 h5
    · norm_num
    · norm_num
    · push_neg at h1 h2
      linarith
    · exact le_max_left _ _
    · exact le_max_left _ _
    · exact le_max_left _ _
  · split_ifs with h1 h2 h3 h4 h5
    · norm_num
    · norm_num
    · push_neg at h1 h2
      linarith
    · exact max_le (by norm_num) (min_le_left _ _)
    · exact max_le (by norm_num) (min_le_left _ _)
    · exact max_le (by norm_num) (min_le_left _ _)

theorem kelly_yes_pos_iff {p s : ℚ} (h : 0 < kelly_yes p s) : s < p ∧ s < 1 := by
  unfold kelly_yes at h
  split_ifs at h with hg
  · exact absurd h (lt_irrefl 0)
  · push_neg at hg
    exact hg

theorem kelly_no_pos_iff {p s : ℚ} (h : 0 < kelly_no p s) : p < s ∧ 0 < s := by
  unfold kelly_no at h
  split_ifs at h with hg
  · exact absurd h (lt_irrefl 0)
  · push_neg at hg
    exact hg

/-- C4: for interior p and s both Kelly fractions are non-negative,
and a strictly positive fraction on one side forces zero on the
other. -/
theorem C4_kelly_nonneg_exclusive (p s : ℚ)
    (hp0 : 0 < p) (hp1 : p < 1) (hs0 : 0 < s) (hs1 : s < 1) :
    0 ≤ kelly_yes p s ∧ 0 ≤ kelly_no p s ∧
      (0 < kelly_yes p s → kelly_no p s = 0) ∧
      (0 < kelly_no p s → kelly_yes p s = 0) := by
  refine ⟨?_, ?_, ?_, ?_⟩
  · unfold kelly_yes
    split_ifs with h
    · exact le_refl 0
    · push_neg at h
      exact div_nonneg (by linarith [h.1]) (by linarith [h.2])
  · unfold kelly_no
    split_ifs with h
    · exact le_refl 0
    · push_neg at h
      exact div_nonneg (by linarith [h.1]) (by linarith [h.2])
  · intro hpos
    have := (kelly_yes_pos_iff hpos).1
    unfold kelly_no
    rw [if_pos (Or.inl (le_of_lt this))]
  · intro hpos
    have := (kelly_no_pos_iff hpos).1
    unfold kelly_yes
    rw [if_pos (Or.inl (le_of_lt this))]

theorem C4_witness :
    (0 < (3/5 : ℚ)) ∧
      (0 ≤ kelly_yes (3/5) (1/2) ∧ 0 ≤ kelly_no (3/5) (1/2) ∧
        (0 < kelly_yes (3/5) (1/2) → kelly_no (3/5) (1/2) = 0) ∧
        (0 < kelly_no (3/5) (1/2) → kelly_yes (3/5) (1/2) = 0)) :=
  ⟨by norm_num,
    C4_kelly_nonneg_exclusive (3/5) (1/2) (by norm_num) (by norm_num)
      (by norm_num) (by norm_num)⟩

/-- C5 (counterexample): at s = 0 with p = 1/2 the Yes-side Kelly is
1/2, not 0, so the claim that both sides return 0 at the boundary
fails. -/
theorem C5_counterexample :
    ¬ (kelly_yes_checked (1/2) 0 = some 0 ∧ kelly_no_checked (1/2) 0 = some 0 ∧
        kelly_yes_checked (1/2) 1 = some 0 ∧ kelly_no_checked (1/2) 1 = some 0) := by
  intro h
  have h1 := h.1
  rw [show kelly_yes_checked (1/2) 0 = some (1/2) by
    norm_num [kelly_yes_checked]] at h1
  rw [Option.some.injEq] at h1
  norm_num at h1

/-- C5 (amended): neither side raises a division-by-zero at s = 0 or
s = 1; the side whose denominator vanishes short-circuits to 0, while
the opposite side returns p (resp. 1 - p). -/
theorem C5_amended (p : ℚ) (h0 : 0 ≤ p) (h1 : p ≤ 1) :
    kelly_yes_checked p 0 = some (if p ≤ 0 then 0 else p) ∧
    kelly_no_checked p 0 = some 0 ∧
    kelly_yes_checked p 1 = some 0 ∧
    kelly_no_checked p 1 = some (if 1 ≤ p then 0 else 1 - p) := by
  refine ⟨?_, ?_, ?_, ?_⟩
  · by_cases hp : p ≤ 0
    · norm_num [kelly_yes_checked, hp]
    · norm_num [kelly_yes_checked, hp]
  · norm_num [kelly_no_checked]
  · norm_num [kelly_yes_checked]
  · by_cases hp : (1:ℚ) ≤ p
    · norm_num [kelly_no_checked, hp]
    · norm_num [kelly_no_checked, hp]

theorem C5_witness :
    (0 ≤ (1/2 : ℚ)) ∧ ((1/2 : ℚ) ≤ 1) ∧
      (kelly_yes_checked (1/2) 0 = some (if (1/2:ℚ) ≤ 0 then 0 else 1/2) ∧
        kelly_no_checked (1/2) 0 = some 0 ∧
        kelly_yes_checked (1/2) 1 = some 0 ∧
        kelly_no_checked (1/2) 1 = some (if (1:ℚ) ≤ 1/2 then 0 else 1 - 1/2)) :=
  ⟨by norm_num, by norm_num, C5_amended (1/2) (by norm_num) (by norm_num)⟩


theorem risk_mode_none : risk_mode_from_string none = 1/2 := rfl

/-- C6: a recommendation whose best edge is below the threshold always
carries a zero full-Kelly fraction. -/
theorem C6_small_edge_zero_kelly (markets : List Market) (bankroll : Option ℚ)
    (risk_mode : Option String) (r : Recommendation)
    (hr : r ∈ build_recommendations markets bankroll risk_mode)
    (hsmall : |r.edge0| < EDGE_THRESHOLD) : r.kelly_full = 0 := by
  simp only [build_recommendations, List.mem_mergeSort, List.mem_filterMap] at hr
  obtain ⟨m, hm, heq⟩ := hr
  simp only [rec_for_market] at heq
  by_cases hskip : m.s ≤ 0 ∨ 1 ≤ m.s
  · rw [if_pos hskip] at heq
    exact absurd heq (by simp)
  · rw [if_neg hskip, Option.some.injEq] at heq
    subst heq
    dsimp only at hsmall ⊢
    rw [if_pos hsmall, zero_mul]

theorem pre_p_sports_longshot : compute_pre_p "sports" (1/20) = 4/100 := by
  have h : clamp_s (1/20) ≤ 1/10 := clamp_s_low (by norm_num)
  simp only [compute_pre_p, if_pos h]

theorem rec_sports_longshot :
    rec_for_market (1/2) sports_longshot = some sports_longshot_rec := by
  have habs : |(1:ℚ)/100| = 1/100 := abs_of_pos (by norm_num)
  simp only [rec_for_market, sports_longshot, sports_longshot_rec,
    pre_p_sports_longshot, kelly_yes, kelly_no, EDGE_THRESHOLD]
  norm_num [habs]

theorem build_single_sports :
    build_recommendations [sports_longshot] none none = [sports_longshot_rec] := by
  simp only [build_recommendations, risk_mode_none, List.filterMap_cons,
    List.filterMap_nil, rec_sports_longshot]
  simp [List.mergeSort]

theorem C6_witness :
    (sports_longshot_rec ∈ build_recommendations [sports_longshot] none none ∧
      |sports_longshot_rec.edge0| < EDGE_THRESHOLD) ∧
      sports_longshot_rec.kelly_full = 0 :=
  have hmem : sports_longshot_rec ∈ build_recommendations [sports_longshot] none none := by
    rw [build_single_sports]
    exact List.mem_singleton.mpr rfl
  have hsm : |sports_longshot_rec.edge0| < EDGE_THRESHOLD := by
    have habs : |(1:ℚ)/100| = 1/100 := abs_of_pos (by norm_num)
    norm_num [sports_longshot_rec, EDGE_THRESHOLD, habs]
  ⟨⟨hmem, hsm⟩,
    C6_small_edge_zero_kelly [sports_longshot] none none sports_longshot_rec hmem hsm⟩

/-- C7 (amended): every recommendation's limit price is the market
price `s` itself, regardless of side, so re-running the Kelly sizing at
the limit price reproduces the original fractions rather than a zero
edge. -/
theorem C7_amended_limit (markets : List Market) (bankroll : Option ℚ)
    (risk_mode : Option String) (r : Recommendation)
    (hr : r ∈ build_recommendations markets bankroll risk_mode) :
    r.limit = r.s ∧ kelly_yes r.p0 r.limit = kelly_yes r.p0 r.s ∧
      kelly_no r.p0 r.limit = kelly_no r.p0 r.s := by
  simp only [build_recommendations, List.mem_mergeSort, List.mem_filterMap] at hr
  obtain ⟨m, hm, heq⟩ := hr
  simp only [rec_for_market] at heq
  by_cases hskip : m.s ≤ 0 ∨ 1 ≤ m.s
  · rw [if_pos hskip] at heq
    exact absurd heq (by simp)
  · rw [if_neg hskip, Option.some.injEq] at heq
    subst heq
    exact ⟨rfl, rfl, rfl⟩

theorem pre_p_politics : compute_pre_p "politics" (3/5) = 53/100 := by
  have hc : clamp_s (3/5) = 3/5 := by
    unfold clamp_s
    norm_num
  have hfin : containsSub "finance" (lower_str "politics") = false := rfl
  have hsci : containsSub "science" (lower_str "politics") = false := rfl
  simp only [compute_pre_p, hc, hfin, hsci]
  norm_num

theorem rec_politics :
    rec_for_market (1/2) politics_market = some politics_rec := by
  have habs : |(7:ℚ)/100| = 7/100 := abs_of_pos (by norm_num)
  simp only [rec_for_market, politics_market, politics_rec,
    pre_p_politics, kelly_yes, kelly_no, EDGE_THRESHOLD]
  norm_num [habs]

theorem build_single_politics :
    build_recommendations [politics_market] none none = [politics_rec] := by
  simp only [build_recommendations, risk_mode_none, List.filterMap_cons,
    List.filterMap_nil, rec_politics]
  simp [List.mergeSort]

/-- C7 (counterexample): the single politics market at s = 0.6 yields a
No-side recommendation whose limit price is s = 0.6, not 1 - s = 0.4,
and re-running the No-side Kelly at that limit price gives 7/60, not
zero. -/
theorem C7_counterexample :
    build_recommendations [politics_market] none none = [politics_rec] ∧
      politics_rec.side = "no" ∧
      politics_rec.limit ≠ 1 - politics_rec.s ∧
      kelly_no politics_rec.p0 politics_rec.limit ≠ 0 := by
  refine ⟨build_single_politics, rfl, ?_, ?_⟩
  · norm_num [politics_rec]
  · norm_num [politics_rec, kelly_no]

theorem C7_witness :
    (politics_rec ∈ build_recommendations [politics_market] none none) ∧
      (politics_rec.limit = politics_rec.s ∧
        kelly_yes politics_rec.p0 politics_rec.limit
          = kelly_yes politics_rec.p0 politics_rec.s ∧
        kelly_no politics_rec.p0 politics_rec.limit
          = kelly_no politics_rec.p0 politics_rec.s) :=
  have hmem : politics_rec ∈ build_recommendations [politics_market] none none := by
    rw [build_single_politics]
    exact List.mem_singleton.mpr rfl
  ⟨hmem, C7_amended_limit [politics_market] none none politics_rec hmem⟩


/-- C1 (code evaluation at the failing input): a short bet whose single
purchase lot stores the positive magnitude 100 at mark price 0.30 is
mapped with `shares = +100` (the lot sum is kept verbatim, no negation
for the short position), so `mark_value = +30`, not `-30`, and the
expected-value row uses `ev_value = +100 * user_p = +70` at the
market-implied `user_p = 1 - 0.30`. -/
theorem C1_short_kept_unsigned :
    (map_bet short_bet_raw "open").position = "s" ∧
      (map_bet short_bet_raw "open").shares = 100 ∧
      (map_bet short_bet_raw "open").mark_value = 30 ∧
      (map_bet short_bet_raw "open").mark_value ≠ -100 * (3/10) ∧
      (calc_row [] (fun _ => none) 0 (map_bet short_bet_raw "open")).ev_value = 70 := by
  have hpos : ¬ (("s" : String) = "") := by decide
  have hll : ¬ (lower_str "s" = "l") := by decide
  have hmb : map_bet short_bet_raw "open" =
      { bet_id := 7, position := "s", shares := 100, amount_invested := 50,
        avg_price := 1/2, mark_price := 3/10, mark_value := 30,
        unrealized_pnl := -20, status := "open", close_date := none } := by
    simp only [map_bet, short_bet_raw, extract_outcome_price, try_float, hpos]
    norm_num
  rw [hmb]
  refine ⟨rfl, rfl, rfl, by norm_num, ?_⟩
  simp only [calc_row, market_p_win_for_position, clamp01, List.lookup, hpos, hll]
  norm_num
  exact hll

/-- C8 (counterexample): with both USDT and USDC present in the price
mapping, the source returns the USDT value, while the claim requires
the canonical USDC value whenever that key is present. -/
theorem C8_counterexample :
    extract_outcome_price
        (.mapping [("USDT", .convertible (2/5)), ("USDC", .convertible (3/10))])
      = 2/5 ∧ (2/5 : ℚ) ≠ 3/10 := by
  constructor
  · rfl
  · norm_num

/-- C8 (amended): the mapping case prefers USDT, then USDC, then the
first convertible value in insertion order, then the 0.0 sentinel; a
scalar is float-cast with 0.0 on failure. -/
theorem C8_amended_price_priority :
    (∀ (es : List (String × PriceScalar)) (q : ℚ),
        (es.lookup "USDT").bind try_float = some q →
          extract_outcome_price (.mapping es) = q) ∧
    (∀ (es : List (String × PriceScalar)) (q : ℚ),
        (es.lookup "USDT").bind try_float = none →
          (es.lookup "USDC").bind try_float = some q →
          extract_outcome_price (.mapping es) = q) ∧
    (∀ (es : List (String × PriceScalar)),
        (es.lookup "USDT").bind try_float = none →
          (es.lookup "USDC").bind try_float = none →
          extract_outcome_price (.mapping es) = (first_convertible es).getD 0) ∧
    (∀ q : ℚ, extract_outcome_price (.scalar (.convertible q)) = q) ∧
    extract_outcome_price (.scalar .malformed) = 0 := by
  refine ⟨?_, ?_, ?_, fun q => rfl, rfl⟩
  · intro es q h
    simp only [extract_outcome_price, h]
  · intro es q h1 h2
    simp only [extract_outcome_price, h1, h2]
  · intro es h1 h2
    simp only [extract_outcome_price, h1, h2]

theorem C8_witness :
    (([("USDT", PriceScalar.convertible (2/5))].lookup "USDT").bind try_float
        = some (2/5) ∧
      extract_outcome_price (.mapping [("USDT", PriceScalar.convertible (2/5))])
        = 2/5) ∧
    (([("OOM", PriceScalar.malformed), ("USDC", PriceScalar.convertible (1/4))].lookup
          "USDT").bind try_float = none ∧
      extract_outcome_price
          (.mapping [("OOM", PriceScalar.malformed), ("USDC", PriceScalar.convertible (1/4))])
        = 1/4) :=
  ⟨⟨rfl, C8_amended_price_priority.1 [("USDT", PriceScalar.convertible (2/5))] (2/5) rfl⟩,
    ⟨rfl, C8_amended_price_priority.2.1
      [("OOM", PriceScalar.malformed), ("USDC", PriceScalar.convertible (1/4))] (1/4) rfl rfl⟩⟩


/-- C2 (counterexample): on a malformed (non-JSON) model response,
`get_p_from_gpt` raises (models as `.error`) instead of returning; and
on a transport error it does return, but with the `_fallback_p` value
(the market price 0.2), which differs from the heuristic
`_compute_pre_p("politics", 0.2) = 0.51`. -/
theorem C2_counterexample :
    (get_p_from_gpt politics_cheap (.response (.badJson "not json"))).toOption
        = none ∧
      (get_p_from_gpt politics_cheap (.transportError "boom" none)).toOption.map
          Prod.fst = some (1/5) ∧
      compute_pre_p "politics" (1/5) = 51/100 ∧ (1/5 : ℚ) ≠ 51/100 := by
  refine ⟨rfl, ?_, ?_, by norm_num⟩
  · simp only [get_p_from_gpt, fallback_p, clamp_p, politics_cheap]
    norm_num
    exact ⟨_, rfl⟩
  · have hc : clamp_s (1/5) = 1/5 := by
      unfold clamp_s
      norm_num
    have hfin : containsSub "finance" (lower_str "politics") = false := rfl
    have hsci : containsSub "science" (lower_str "politics") = false := rfl
    simp only [compute_pre_p, hc, hfin, hsci]
    norm_num

/-- C2 (amended): transport errors, an unavailable client and an active
rate limit all degrade to a normal return carrying the `_fallback_p`
probability and a failure reason, but a malformed JSON response or a
response without a numeric `p` raises to the caller; the fallback is
`_fallback_p` (the nudged market price), not `_compute_pre_p`. -/
theorem C2_amended_degradation (m : Market) (msg raw1 raw2 : String)
    (status : Option Nat) (e : Option String) :
    (∃ reason, get_p_from_gpt m (.transportError msg status)
        = .ok (fallback_p m (some reason))) ∧
      get_p_from_gpt m .rateLimited
        = .ok (fallback_p m
            (some "OpenAI rate limit still in effect; using market price")) ∧
      (∃ reason, get_p_from_gpt m (.noClient e)
        = .ok (fallback_p m (some reason))) ∧
      (get_p_from_gpt m (.response (.badJson raw1))).toOption = none ∧
      (get_p_from_gpt m (.response (.missingP raw2))).toOption = none :=
  ⟨⟨_, rfl⟩, rfl, ⟨_, rfl⟩, rfl, rfl⟩

/-- C9 (counterexample): with identical declared inputs (same open-bet
records, same empty override map) the reconciliation result still
changes when the clock reading crosses the bet's close date (the
`is_pending` row flag flips) or when a legacy `p_<bet_id>` request
argument is present; both are inputs beyond the declared ones. -/
theorem C9_counterexample :
    calc_open_bets [pending_bet] [] (fun _ => none) 50
        ≠ calc_open_bets [pending_bet] [] (fun _ => none) 150 ∧
      calc_open_bets [pending_bet] [] (fun _ => none) 50
        ≠ calc_open_bets [pending_bet] [] (fun _ => some 1) 50 := by
  have hl1 : ¬ (("l" : String) = "") := by decide
  have hl2 : lower_str "l" = "l" := by decide
  constructor
  · intro h
    have h2 := congrArg (fun c => c.rows.map (·.is_pending)) h
    simp only [calc_open_bets, calc_row, List.map, pending_bet] at h2
    norm_num at h2
  · intro h
    have h2 := congrArg (fun c => c.rows.map (·.p_input)) h
    simp only [calc_open_bets, calc_row, List.map, List.lookup, clamp01,
      market_p_win_for_position, pending_bet, hl1, hl2, if_false,
      eq_self_iff_true, if_true] at h2
    norm_num at h2

/-- C9 (amended): once the clock reading and the legacy request
arguments are held fixed as explicit inputs, reconciliation is a pure
function of the declared inputs, and every portfolio total is
independent of the clock — only the per-row `is_pending` flag can
differ between two runs at different times. -/
theorem C9_amended_totals_clock_free (open_bets : List BetRow)
    (pmap : List (Nat × ℚ)) (legacy : Nat → Option ℚ) (now now' : ℤ)
    (orders : List LimitOrderRow) (cash : ℚ) :
    portfolio_totals (calc_open_bets open_bets pmap legacy now) orders cash
      = portfolio_totals (calc_open_bets open_bets pmap legacy now') orders cash ∧
    (calc_open_bets open_bets pmap legacy now).rows.map (·.ev_value)
      = (calc_open_bets open_bets pmap legacy now').rows.map (·.ev_value) := by
  have hmap : ∀ (g : OpenBetRow → ℚ),
      (∀ b, g (calc_row pmap legacy now b) = g (calc_row pmap legacy now' b)) →
      (open_bets.map (calc_row pmap legacy now)).map g
        = (open_bets.map (calc_row pmap legacy now')).map g := by
    intro g hg
    rw [List.map_map, List.map_map,
      show (g ∘ calc_row pmap legacy now) = (g ∘ calc_row pmap legacy now') from
        funext (fun b => hg b)]
  have hA := hmap (·.mv_value) (fun b => rfl)
  have hB := hmap (·.ev_value) (fun b => rfl)
  have hC := hmap (·.unrealized_calc) (fun b => rfl)
  constructor
  · simp only [portfolio_totals, calc_open_bets, PortfolioTotals.mk.injEq]
    rw [hA, hB, hC]
    simp
  · simp only [calc_open_bets]
    exact hB

end Futuur
